import Mathlib

/-!
Shallow embedding of the lock-file resolution and download engine of
`mia/commands/definition.py` (class `Definition`): the methods
`get_apps_lock_info`, `create_apps_lock_file` and `download_apps`.

Modelling conventions:
* Python dictionaries read from YAML are modelled as structures with
  `Option` fields; a `none` field models an absent key.  Reading an absent
  key (`d['k']` raising `KeyError`) is modelled by the error value
  `MiaErr.keyError`.
* `sys.exit(1)` is modelled by `MiaErr.exitOne`; an uncaught exception from
  a failed network fetch is `MiaErr.fetchError`.  All three abort the run
  with a non-zero process exit status.
* The external lookup capability `MiaFDroid.fdroid_get_app_lock_info`
  (not part of the sources under verification) is an oracle parameter
  `lookup : List (String × RepoInfo) → AppDeclaration → Option LockEntry`,
  exactly the shape the call site consumes.
* `MiaUtils.urlretrieve` (also external) is an oracle.  For the repository
  index loop it is `fetch : String → Except Unit Unit`; modelled from the
  spec: a failed fetch signals failure (FetchFailed / an exception), a
  successful fetch leaves the index file cached on disk.  For the app
  download loop it is an oracle returning the HTTP status code per entry.
* The workspace resource cache of index files is the list of repository
  ids whose `<id>.index.xml` file exists.
-/

/-- Python `os.path.basename` on the URLs used here: the substring after the
last `/` (the whole string when no `/` occurs).  Implemented by structural
recursion on the reversed character list so that it evaluates by `decide`. -/
def takeUntilSlash : List Char → List Char
  | [] => []
  | c :: cs => if c = '/' then [] else c :: takeUntilSlash cs

/-- `os.path.basename(url)`: final path segment of `url`. -/
def basename (s : String) : String :=
  ⟨(takeUntilSlash s.data.reverse).reverse⟩

/-- One entry of `settings['repositories']` (keys `id`, `name`, `url`).
The parsed `index.xml` tree is not modelled structurally; it only flows
into the external lookup oracle. -/
structure RepoInfo where
  id : String
  name : String
  url : String
deriving DecidableEq, Repr

/-- One entry of `settings['apps']`.  `none` models an absent key. -/
structure AppDeclaration where
  id : Option String
  url : Option String
  repo : Option String
  versioncode : Option String
  path : Option String
deriving DecidableEq, Repr

/-- One entry of the lock list (`lock_info` dictionaries).  `none` in
`repository_id`/`path` models an absent key: the direct-URL branch builds
entries without those keys, and `download_apps` reads `path` with
`dict.get` (defaulting), while the id-branch reads `repository_id` with
`dict[...]` (raising on absence). -/
structure LockEntry where
  id : Option String
  package_name : String
  package_url : String
  repository_id : Option String
  path : Option String
deriving DecidableEq, Repr

/-- How a run of the engine aborts: `keyError` = uncaught `KeyError`,
`exitOne` = explicit `sys.exit(1)`, `fetchError` = uncaught failure of a
repository index fetch.  Each gives the process a non-zero exit status. -/
inductive MiaErr
  | keyError
  | exitOne
  | fetchError
deriving DecidableEq, Repr

/-- `settings['defaults']` (`none` models a missing `repository_id` key). -/
structure Defaults where
  repository_id : Option String
deriving DecidableEq, Repr

/-- The parts of the definition settings consumed by `get_apps_lock_info`. -/
structure Settings where
  defaults : Defaults
  repositories : List RepoInfo
  apps : List AppDeclaration
deriving DecidableEq, Repr

/-- Discriminator used to state counterexamples: the `.ok` payload of a
run's result, `none` when the run aborted. -/
def exceptOk {α : Type} (r : Except MiaErr α) : Option α :=
  match r with
  | .ok x => some x
  | .error _ => none

/-- Lines 289-296 of `definition.py`: delegate to the external lookup and
inspect its result.  On a hit the code reads `lock_info['repository_id']`
and `repositories_data[repo_id]['name']`; either key being absent raises
`KeyError`. -/
def lookupStep (lookup : List (String × RepoInfo) → AppDeclaration → Option LockEntry)
    (repoData : List (String × RepoInfo)) (app2 : AppDeclaration) :
    Except MiaErr (Option LockEntry × AppDeclaration) :=
  match lookup repoData app2 with
  | none => .ok (none, app2)
  | some lock_info =>
    match lock_info.repository_id with
    | none => .error .keyError
    | some repo_id =>
      match List.lookup repo_id repoData with
      | none => .error .keyError
      | some _repo => .ok (some lock_info, app2)

/-- Lines 267-296 of `definition.py`: the body of the per-app loop of
`get_apps_lock_info`.  Returns the optional lock entry (absent = warning)
together with the post-state of the (mutated-in-place) declaration.
In the direct-URL branch the code builds
`{'id': app_info['id'], 'package_name': basename(url), 'package_url': url}`;
reading `app_info['id']` raises `KeyError` when the key is absent. -/
def resolveApp (lookup : List (String × RepoInfo) → AppDeclaration → Option LockEntry)
    (forceLatest : Bool) (dflt : String) (repoData : List (String × RepoInfo))
    (app : AppDeclaration) : Except MiaErr (Option LockEntry × AppDeclaration) :=
  match app.url with
  | some u =>
    match app.id with
    | some i =>
      .ok (some { id := some i, package_name := basename u, package_url := u,
                  repository_id := none, path := none }, app)
    | none => .error .keyError
  | none =>
    match app.id with
    | none => .ok (none, app)
    | some _ =>
      let app1 := match app.repo with
        | some _ => app
        | none => { app with repo := some dflt }
      let app2 := if forceLatest || app1.versioncode.isNone
        then { app1 with versioncode := some "latest" } else app1
      lookupStep lookup repoData app2

/-- The in-place mutation lines 281-287 perform on a declaration before the
repository lookup (and the identity elsewhere): fill `repo` with the
default repository id when absent, overwrite `versioncode` with `"latest"`
when forced or absent. -/
def mutateApp (forceLatest : Bool) (dflt : String) (app : AppDeclaration) :
    AppDeclaration :=
  match app.url with
  | some _ => app
  | none =>
    match app.id with
    | none => app
    | some _ =>
      let app1 := match app.repo with
        | some _ => app
        | none => { app with repo := some dflt }
      if forceLatest || app1.versioncode.isNone
        then { app1 with versioncode := some "latest" } else app1

/-- Lines 262-299 of `definition.py`: the app loop.  Processes declarations
in order; a `KeyError` propagates and aborts the loop, a missed lookup sets
`warnings_found` and continues.  Returns the lock list, the warnings flag
and the post-state of the declaration list. -/
def resolveApps (lookup : List (String × RepoInfo) → AppDeclaration → Option LockEntry)
    (forceLatest : Bool) (dflt : String) (repoData : List (String × RepoInfo)) :
    List AppDeclaration → Except MiaErr (List LockEntry × Bool × List AppDeclaration)
  | [] => .ok ([], false, [])
  | a :: rest =>
    match resolveApp lookup forceLatest dflt repoData a with
    | .error e => .error e
    | .ok (oEntry, a') =>
      match resolveApps lookup forceLatest dflt repoData rest with
      | .error e => .error e
      | .ok (es, w, as) =>
        match oEntry with
        | some e => .ok (e :: es, w, a' :: as)
        | none => .ok (es, true, a' :: as)

/-- `resolveApp` succeeded (no uncaught exception for this declaration). -/
def app_resolves_ok (lookup : List (String × RepoInfo) → AppDeclaration → Option LockEntry)
    (forceLatest : Bool) (dflt : String) (repoData : List (String × RepoInfo))
    (app : AppDeclaration) : Bool :=
  match resolveApp lookup forceLatest dflt repoData app with
  | .ok _ => true
  | .error _ => false

/-- The declaration matched: resolution appended a lock entry for it. -/
def app_matches (lookup : List (String × RepoInfo) → AppDeclaration → Option LockEntry)
    (forceLatest : Bool) (dflt : String) (repoData : List (String × RepoInfo))
    (app : AppDeclaration) : Bool :=
  match resolveApp lookup forceLatest dflt repoData app with
  | .ok (some _, _) => true
  | _ => false

/-- The lock entry a declaration contributes, if any. -/
def entryOf (lookup : List (String × RepoInfo) → AppDeclaration → Option LockEntry)
    (forceLatest : Bool) (dflt : String) (repoData : List (String × RepoInfo))
    (app : AppDeclaration) : Option LockEntry :=
  match resolveApp lookup forceLatest dflt repoData app with
  | .ok (some e, _) => some e
  | _ => none

/-- Lines 245-260 of `definition.py`: the repository index loop.  For each
repository, in order: if `<id>.index.xml` is not in the resource cache,
fetch `<url>/index.xml` (modelled from the spec: a failed fetch signals
failure and, having no handler at this call site, aborts the run; a
successful fetch leaves the file cached), then record the repository under
its id.  Returns the ids fetched over the network (in order), the final
cache state, and the assembled `repositories_data` or the abort. -/
def loadRepos (fetch : String → Except Unit Unit) :
    List RepoInfo → List String →
    List String × List String × Except Unit (List (String × RepoInfo))
  | [], cache => ([], cache, .ok [])
  | r :: rest, cache =>
    if r.id ∈ cache then
      match loadRepos fetch rest cache with
      | (f, c, .error e) => (f, c, .error e)
      | (f, c, .ok d) => (f, c, .ok ((r.id, r) :: d))
    else
      match fetch (r.url ++ "/index.xml") with
      | .error _ => ([r.id], cache, .error ())
      | .ok _ =>
        match loadRepos fetch rest (r.id :: cache) with
        | (f, c, .error e) => (r.id :: f, c, .error e)
        | (f, c, .ok d) => (r.id :: f, c, .ok ((r.id, r) :: d))

/-- Lines 231-304 of `definition.py`: `get_apps_lock_info`.  Checks the
default repository id (`sys.exit(1)` when falsy, `KeyError` when the key is
missing), loads every repository index, runs the app loop, and finally
gates on the warnings flag with the user confirmation (decline =
`sys.exit(1)`).  Returns the fetched repository ids, the final index cache
and the lock list or the abort. -/
def get_apps_lock_info (fetch : String → Except Unit Unit)
    (lookup : List (String × RepoInfo) → AppDeclaration → Option LockEntry)
    (forceLatest confirmWarnings : Bool) (settings : Settings)
    (cache : List String) :
    List String × List String × Except MiaErr (List LockEntry) :=
  match settings.defaults.repository_id with
  | none => ([], cache, .error .keyError)
  | some dflt =>
    if dflt = "" then ([], cache, .error .exitOne)
    else
      match loadRepos fetch settings.repositories cache with
      | (fetched, cache', .error _) => (fetched, cache', .error .fetchError)
      | (fetched, cache', .ok repositories_data) =>
        match resolveApps lookup forceLatest dflt repositories_data settings.apps with
        | .error e => (fetched, cache', .error e)
        | .ok (apps_list, warnings, _) =>
          if warnings && !confirmWarnings then (fetched, cache', .error .exitOne)
          else (fetched, cache', .ok apps_list)

/-- Deterministic rendering of one lock entry, modelling
`yaml.dump(lock_data, default_flow_style=False)` (keys emitted in sorted
order, absent keys omitted). -/
def yaml_dump_entry (e : LockEntry) : String :=
  "- id: " ++ e.id.getD "null" ++ "\n" ++
  "  package_name: " ++ e.package_name ++ "\n" ++
  "  package_url: " ++ e.package_url ++ "\n" ++
  (match e.path with
   | none => ""
   | some p => "  path: " ++ p ++ "\n") ++
  (match e.repository_id with
   | none => ""
   | some r => "  repository_id: " ++ r ++ "\n")

/-- Serialization of the whole lock list. -/
def yaml_dump (es : List LockEntry) : String :=
  match es with
  | [] => "[]\n"
  | _ => String.join (es.map yaml_dump_entry)

/-- Lines 209-219 of `definition.py`: the bytes `create_apps_lock_file`
writes into `apps_lock.yaml`, `none` when resolution aborted before the
write. -/
def create_apps_lock_file_bytes (fetch : String → Except Unit Unit)
    (lookup : List (String × RepoInfo) → AppDeclaration → Option LockEntry)
    (forceLatest confirmWarnings : Bool) (settings : Settings)
    (cache : List String) : Option String :=
  match (get_apps_lock_info fetch lookup forceLatest confirmWarnings settings cache).2.2 with
  | .ok lock_data => some (yaml_dump lock_data)
  | .error _ => none

/-- Process outcome of the lock-file write step. -/
inductive PersistOutcome
  | success
  | exitNonZero
deriving DecidableEq, Repr

/-- Lines 217-225 of `definition.py`: the persistence step of
`create_apps_lock_file`, as a transition on the lock-file contents
(`none` = no file).  `open(lock_file_path, 'w')` truncates the file first;
a `yaml.YAMLError` is caught and answered with `sys.exit(1)`; any I/O error
from the write escapes uncaught (also a non-zero exit).  Bytes partially
written before a failed write are abstracted as the empty prefix. -/
def create_lock_persist (dumpFails writeFails : Bool) (yamlBytes : String)
    (_lockFile : Option String) : PersistOutcome × Option String :=
  let truncated : Option String := some ""
  if dumpFails then (.exitNonZero, truncated)
  else if writeFails then (.exitNonZero, truncated)
  else (.success, some yamlBytes)

/-- Per-entry outcome reported by the download loop. -/
inductive DlOutcome
  | downloaded
  | continuedDl
  | skipped
deriving DecidableEq, Repr

/-- Lines 323-330 of `definition.py`: interpretation of the HTTP status
code returned by `MiaUtils.urlretrieve`; `none` means the `else` branch,
`raise Exception(...)`. -/
def classify_status (s : Nat) : Option DlOutcome :=
  if s = 200 then some .downloaded
  else if s = 206 then some .continuedDl
  else if s = 416 then some .skipped
  else none

/-- Lines 306-330 of `definition.py`: `download_apps`.  Walks the lock
entries in order; `fetch` is the `urlretrieve` oracle giving the HTTP
status per entry.  Returns the entries fetched so far paired with their
reported outcome, and whether the loop was aborted by the uncaught
`Exception` (which skips every later entry). -/
def download_apps (fetch : LockEntry → Nat) :
    List LockEntry → List (LockEntry × DlOutcome) × Bool
  | [] => ([], false)
  | e :: rest =>
    match classify_status (fetch e) with
    | some o =>
      let p := download_apps fetch rest
      ((e, o) :: p.1, p.2)
    | none => ([], true)

/-! ### Helper lemmas about the per-declaration step -/

theorem lookupStep_ok_snd
    {lookup : List (String × RepoInfo) → AppDeclaration → Option LockEntry}
    {rd : List (String × RepoInfo)} {a2 : AppDeclaration}
    {o : Option LockEntry} {a' : AppDeclaration}
    (h : lookupStep lookup rd a2 = .ok (o, a')) : a' = a2 := by
  unfold lookupStep at h
  split at h
  · cases h; rfl
  · split at h
    · cases h
    · split at h
      · cases h
      · cases h; rfl

theorem resolveApp_id_eq
    {lookup : List (String × RepoInfo) → AppDeclaration → Option LockEntry}
    {fl : Bool} {dflt : String} {rd : List (String × RepoInfo)}
    {a : AppDeclaration} {i : String}
    (hu : a.url = none) (hi : a.id = some i) :
    resolveApp lookup fl dflt rd a = lookupStep lookup rd (mutateApp fl dflt a) := by
  simp only [resolveApp, mutateApp, hu, hi]

theorem resolveApp_ok_snd
    {lookup : List (String × RepoInfo) → AppDeclaration → Option LockEntry}
    {fl : Bool} {dflt : String} {rd : List (String × RepoInfo)}
    {a : AppDeclaration} {o : Option LockEntry} {a' : AppDeclaration}
    (h : resolveApp lookup fl dflt rd a = .ok (o, a')) :
    a' = mutateApp fl dflt a := by
  rcases hu : a.url with _ | u
  · rcases hi : a.id with _ | i
    · simp only [resolveApp, mutateApp, hu, hi] at h ⊢
      cases h; rfl
    · rw [resolveApp_id_eq hu hi] at h
      exact lookupStep_ok_snd h
  · rcases hi : a.id with _ | i
    · simp only [resolveApp, hu, hi] at h
      cases h
    · simp only [resolveApp, mutateApp, hu, hi] at h ⊢
      cases h; rfl

theorem mutateApp_repo {fl : Bool} {dflt : String} {a : AppDeclaration} {i : String}
    (hu : a.url = none) (hi : a.id = some i) :
    (mutateApp fl dflt a).repo = some (a.repo.getD dflt) := by
  simp only [mutateApp, hu, hi]
  rcases hr : a.repo with _ | r <;> split <;> simp [hr]

theorem mutateApp_versioncode {fl : Bool} {dflt : String} {a : AppDeclaration} {i : String}
    (hu : a.url = none) (hi : a.id = some i) :
    (mutateApp fl dflt a).versioncode =
      if fl || a.versioncode.isNone then some "latest" else a.versioncode := by
  simp only [mutateApp, hu, hi]
  rcases hr : a.repo with _ | r <;> split <;> simp_all

/-! ### Helper lemmas about the app loop -/

theorem resolveApps_ok_mutation
    {lookup : List (String × RepoInfo) → AppDeclaration → Option LockEntry}
    {fl : Bool} {dflt : String} {rd : List (String × RepoInfo)} :
    ∀ (apps : List AppDeclaration) {es : List LockEntry} {w : Bool}
      {apps' : List AppDeclaration},
    resolveApps lookup fl dflt rd apps = .ok (es, w, apps') →
    apps' = apps.map (mutateApp fl dflt) := by
  intro apps
  induction apps with
  | nil =>
    intro es w apps' h
    simp only [resolveApps] at h
    cases h
    rfl
  | cons a rest ih =>
    intro es w apps' h
    simp only [resolveApps] at h
    cases h1 : resolveApp lookup fl dflt rd a with
    | error e => rw [h1] at h; cases h
    | ok p =>
      rcases p with ⟨oEntry, a2⟩
      rw [h1] at h
      cases h2 : resolveApps lookup fl dflt rd rest with
      | error e => rw [h2] at h; simp at h
      | ok q =>
        rcases q with ⟨es2, w2, as2⟩
        rw [h2] at h
        rcases oEntry with _ | entry <;>
          simp only [] at h <;> cases h <;>
            rw [List.map_cons, ← resolveApp_ok_snd h1, ih h2]

theorem filterMap_entryOf_length
    {lookup : List (String × RepoInfo) → AppDeclaration → Option LockEntry}
    {fl : Bool} {dflt : String} {rd : List (String × RepoInfo)} :
    ∀ (apps : List AppDeclaration),
    (apps.filterMap (entryOf lookup fl dflt rd)).length +
      apps.countP (fun a => ! app_matches lookup fl dflt rd a) = apps.length := by
  intro apps
  induction apps with
  | nil => rfl
  | cons a rest ih =>
    rw [List.filterMap_cons, List.countP_cons, List.length_cons]
    cases h1 : resolveApp lookup fl dflt rd a with
    | error e =>
      have hm : app_matches lookup fl dflt rd a = false := by
        simp [app_matches, h1]
      have he : entryOf lookup fl dflt rd a = none := by
        simp [entryOf, h1]
      simp only [he, hm]
      simp
      omega
    | ok p =>
      rcases p with ⟨oEntry, a2⟩
      rcases oEntry with _ | entry
      · have hm : app_matches lookup fl dflt rd a = false := by
          simp [app_matches, h1]
        have he : entryOf lookup fl dflt rd a = none := by
          simp [entryOf, h1]
        simp only [he, hm]
        simp
        omega
      · have hm : app_matches lookup fl dflt rd a = true := by
          simp [app_matches, h1]
        have he : entryOf lookup fl dflt rd a = some entry := by
          simp [entryOf, h1]
        simp only [he, hm]
        simp
        omega

theorem resolveApps_eq
    {lookup : List (String × RepoInfo) → AppDeclaration → Option LockEntry}
    {fl : Bool} {dflt : String} {rd : List (String × RepoInfo)} :
    ∀ (apps : List AppDeclaration),
    (∀ a ∈ apps, app_resolves_ok lookup fl dflt rd a = true) →
    resolveApps lookup fl dflt rd apps =
      .ok (apps.filterMap (entryOf lookup fl dflt rd),
           apps.any (fun a => ! app_matches lookup fl dflt rd a),
           apps.map (mutateApp fl dflt)) := by
  intro apps
  induction apps with
  | nil => intro _; rfl
  | cons a rest ih =>
    intro h
    have ha := h a (List.mem_cons_self a rest)
    cases h1 : resolveApp lookup fl dflt rd a with
    | error e =>
      simp only [app_resolves_ok, h1] at ha
      cases ha
    | ok p =>
      rcases p with ⟨oEntry, a2⟩
      have hrest := ih (fun x hx => h x (List.mem_cons_of_mem a hx))
      have ha2 : a2 = mutateApp fl dflt a := resolveApp_ok_snd h1
      rcases oEntry with _ | entry
      · simp only [resolveApps, h1, hrest, List.filterMap_cons, List.any_cons,
          List.map_cons, entryOf, app_matches, h1, Bool.not_false, Bool.true_or,
          ha2]
      · simp only [resolveApps, h1, hrest, List.filterMap_cons, List.any_cons,
          List.map_cons, entryOf, app_matches, h1, Bool.not_true, Bool.false_or,
          ha2]

/-! ### Helper lemmas about the repository index loop -/

theorem loadRepos_cons_cached (fetch : String → Except Unit Unit)
    (r : RepoInfo) (rest : List RepoInfo) (cache : List String)
    (h : r.id ∈ cache) :
    loadRepos fetch (r :: rest) cache =
      ((loadRepos fetch rest cache).1, (loadRepos fetch rest cache).2.1,
       Except.map (fun d => (r.id, r) :: d) (loadRepos fetch rest cache).2.2) := by
  simp only [loadRepos, if_pos h]
  rcases loadRepos fetch rest cache with ⟨f, c, e | d⟩ <;> rfl

theorem loadRepos_cons_fetch_err (fetch : String → Except Unit Unit)
    (r : RepoInfo) (rest : List RepoInfo) (cache : List String)
    (h : r.id ∉ cache) (hf : fetch (r.url ++ "/index.xml") = .error ()) :
    loadRepos fetch (r :: rest) cache = ([r.id], cache, .error ()) := by
  simp only [loadRepos, if_neg h, hf]

theorem loadRepos_cons_fetch_ok (fetch : String → Except Unit Unit)
    (r : RepoInfo) (rest : List RepoInfo) (cache : List String)
    (h : r.id ∉ cache) (hf : fetch (r.url ++ "/index.xml") = .ok ()) :
    loadRepos fetch (r :: rest) cache =
      (r.id :: (loadRepos fetch rest (r.id :: cache)).1,
       (loadRepos fetch rest (r.id :: cache)).2.1,
       Except.map (fun d => (r.id, r) :: d)
         (loadRepos fetch rest (r.id :: cache)).2.2) := by
  simp only [loadRepos, if_neg h, hf]
  rcases loadRepos fetch rest (r.id :: cache) with ⟨f, c, e | d⟩ <;> rfl

theorem loadRepos_fetched_nodup_disjoint (fetch : String → Except Unit Unit) :
    ∀ (repos : List RepoInfo) (cache : List String),
      (loadRepos fetch repos cache).1.Nodup ∧
      ∀ i ∈ (loadRepos fetch repos cache).1, i ∉ cache := by
  intro repos
  induction repos with
  | nil =>
    intro cache
    exact ⟨List.nodup_nil, by intro i hi; cases hi⟩
  | cons r rest ih =>
    intro cache
    by_cases hm : r.id ∈ cache
    · rw [loadRepos_cons_cached fetch r rest cache hm]
      exact ih cache
    · rcases hf : fetch (r.url ++ "/index.xml") with e | u
      · cases e
        rw [loadRepos_cons_fetch_err fetch r rest cache hm hf]
        refine ⟨List.nodup_singleton _, ?_⟩
        intro i hi
        rw [List.mem_singleton] at hi
        subst hi
        exact hm
      · cases u
        rw [loadRepos_cons_fetch_ok fetch r rest cache hm hf]
        have hih := ih (r.id :: cache)
        constructor
        · refine List.nodup_cons.mpr ⟨?_, hih.1⟩
          intro hmem
          exact (hih.2 _ hmem) (List.mem_cons_self _ _)
        · intro i hi
          rcases List.mem_cons.mp hi with h | h
          · subst h; exact hm
          · exact fun hc => (hih.2 _ h) (List.mem_cons_of_mem _ hc)

theorem loadRepos_cache_monotone (fetch : String → Except Unit Unit) :
    ∀ (repos : List RepoInfo) (cache : List String),
      ∀ i ∈ cache, i ∈ (loadRepos fetch repos cache).2.1 := by
  intro repos
  induction repos with
  | nil => intro cache i hi; exact hi
  | cons r rest ih =>
    intro cache i hi
    by_cases hm : r.id ∈ cache
    · rw [loadRepos_cons_cached fetch r rest cache hm]
      exact ih cache i hi
    · rcases hf : fetch (r.url ++ "/index.xml") with e | u
      · cases e
        rw [loadRepos_cons_fetch_err fetch r rest cache hm hf]
        exact hi
      · cases u
        rw [loadRepos_cons_fetch_ok fetch r rest cache hm hf]
        exact ih (r.id :: cache) i (List.mem_cons_of_mem _ hi)

theorem loadRepos_ok_covered (fetch : String → Except Unit Unit) :
    ∀ (repos : List RepoInfo) (cache : List String)
      (d : List (String × RepoInfo)),
      (loadRepos fetch repos cache).2.2 = .ok d →
      ∀ r ∈ repos, r.id ∈ (loadRepos fetch repos cache).2.1 := by
  intro repos
  induction repos with
  | nil => intro cache d _ r hr; cases hr
  | cons r rest ih =>
    intro cache d hok x hx
    by_cases hm : r.id ∈ cache
    · rw [loadRepos_cons_cached fetch r rest cache hm] at hok ⊢
      rcases hrec : (loadRepos fetch rest cache).2.2 with e | d2
      · rw [hrec] at hok; cases hok
      · rcases List.mem_cons.mp hx with h | h
        · subst h
          exact loadRepos_cache_monotone fetch rest cache _ hm
        · exact ih cache d2 hrec x h
    · rcases hf : fetch (r.url ++ "/index.xml") with e | u
      · cases e
        rw [loadRepos_cons_fetch_err fetch r rest cache hm hf] at hok
        cases hok
      · cases u
        rw [loadRepos_cons_fetch_ok fetch r rest cache hm hf] at hok ⊢
        rcases hrec : (loadRepos fetch rest (r.id :: cache)).2.2 with e | d2
        · rw [hrec] at hok; cases hok
        · rcases List.mem_cons.mp hx with h | h
          · rw [h]
            exact loadRepos_cache_monotone fetch rest (r.id :: cache) _
              (List.mem_cons_self _ _)
          · exact ih (r.id :: cache) d2 hrec x h

theorem loadRepos_all_cached (fetch : String → Except Unit Unit) :
    ∀ (repos : List RepoInfo) (cache : List String),
      (∀ r ∈ repos, r.id ∈ cache) →
      loadRepos fetch repos cache =
        ([], cache, .ok (repos.map (fun r => (r.id, r)))) := by
  intro repos
  induction repos with
  | nil => intro cache _; rfl
  | cons r rest ih =>
    intro cache h
    rw [loadRepos_cons_cached fetch r rest cache (h r (List.mem_cons_self _ _)),
        ih cache (fun x hx => h x (List.mem_cons_of_mem _ hx))]
    rfl

/-! ### Helper lemma about the download loop -/

theorem download_apps_halt (fetch : LockEntry → Nat) (e : LockEntry) :
    ∀ (pre rest : List LockEntry),
    (∀ x ∈ pre, (classify_status (fetch x)).isSome = true) →
    classify_status (fetch e) = none →
    download_apps fetch (pre ++ e :: rest) =
      (pre.map (fun x => (x, (classify_status (fetch x)).getD .downloaded)),
       true) := by
  intro pre
  induction pre with
  | nil =>
    intro rest _ he
    simp only [List.nil_append, download_apps, he, List.map_nil]
  | cons a pre ih =>
    intro rest hpre he
    have ha : (classify_status (fetch a)).isSome = true :=
      hpre a (List.mem_cons_self _ _)
    rcases ho : classify_status (fetch a) with _ | o
    · rw [ho] at ha; cases ha
    · simp only [List.cons_append, download_apps, ho, List.append_eq]
      rw [ih rest (fun x hx => hpre x (List.mem_cons_of_mem _ hx)) he]
      simp [ho]

/-! ### C1: direct-URL declarations -/

/-- C1 counterexample: the claim says resolution of a declaration with a
`url` always succeeds, even with no `id` field, producing an entry with a
null id.  On the code, the direct-URL branch reads `app_info['id']`
unconditionally (line 269), so a declaration with `url` but no `id` raises
`KeyError` and no entry is produced: resolution does not succeed. -/
theorem direct_url_without_id_crashes :
    app_resolves_ok (fun _ _ => none) false "f-droid" []
      { id := none, url := some "https://host/x/custom-1.0.apk",
        repo := none, versioncode := none, path := none } = false := rfl

/-- C1 (amended): for every declaration that has both a `url` and an `id`
field, resolution synthesizes a lock entry whose `package_name` is the
final path segment of `url` and whose `package_url` is `url`, consults no
repository (the result is the same for every lookup oracle and every
repository data), and always succeeds, leaving the declaration unchanged;
a declaration with `url` but no `id` instead raises `KeyError`. -/
theorem direct_url_entry_synthesis
    (lookup : List (String × RepoInfo) → AppDeclaration → Option LockEntry)
    (fl : Bool) (dflt : String) (rd : List (String × RepoInfo))
    (app : AppDeclaration) (u i : String)
    (hu : app.url = some u) (hi : app.id = some i) :
    resolveApp lookup fl dflt rd app =
      .ok (some { id := some i, package_name := basename u, package_url := u,
                  repository_id := none, path := none }, app) := by
  simp only [resolveApp, hu, hi]

/-- C1 witness: the amended theorem applied to a concrete declaration, with
the basename evaluated. -/
theorem direct_url_entry_synthesis_witness :
    resolveApp (fun _ _ => none) true "f-droid" []
      { id := some "org.app", url := some "https://mirror/a/b/app-2.apk",
        repo := none, versioncode := none, path := none } =
      .ok (some { id := some "org.app",
                  package_name := basename "https://mirror/a/b/app-2.apk",
                  package_url := "https://mirror/a/b/app-2.apk",
                  repository_id := none, path := none },
           { id := some "org.app", url := some "https://mirror/a/b/app-2.apk",
             repo := none, versioncode := none, path := none }) ∧
    basename "https://mirror/a/b/app-2.apk" = "app-2.apk" :=
  ⟨direct_url_entry_synthesis (fun _ _ => none) true "f-droid" []
      { id := some "org.app", url := some "https://mirror/a/b/app-2.apk",
        repo := none, versioncode := none, path := none }
      "https://mirror/a/b/app-2.apk" "org.app" rfl rfl,
   by decide⟩

/-! ### C2: warning aggregation over a batch -/

/-- C2 counterexample: the claim quantifies over every batch and counts as
failures exactly the declarations whose repository lookup returns null or
that have neither `url` nor `id`.  The batch below has N = 1 and K = 0
under that definition (the declaration has a `url`), so the claim predicts
a lock list of length 1; the code instead raises `KeyError` on
`app_info['id']` and aborts the loop, returning no list at all. -/
theorem warning_aggregation_counterexample :
    exceptOk (resolveApps (fun _ _ => none) false "f-droid" []
      [{ id := none, url := some "https://cdn/apps/tool-2.1.apk",
         repo := none, versioncode := none, path := none }]) = none := rfl

/-- C2 (amended): for every batch in which every declaration resolves
without an uncaught exception (in particular, every declaration bearing a
`url` also bears an `id`, and every successful lookup result names a
repository present in the loaded repository data), the loop never aborts
and returns exactly the matched entries in declaration order — a list of
length N-K where K counts the declarations that fail to match — with the
warnings flag set if and only if K > 0. -/
theorem app_resolver_warning_aggregation
    (lookup : List (String × RepoInfo) → AppDeclaration → Option LockEntry)
    (fl : Bool) (dflt : String) (rd : List (String × RepoInfo))
    (apps : List AppDeclaration)
    (h : ∀ a ∈ apps, app_resolves_ok lookup fl dflt rd a = true) :
    resolveApps lookup fl dflt rd apps =
      .ok (apps.filterMap (entryOf lookup fl dflt rd),
           apps.any (fun a => ! app_matches lookup fl dflt rd a),
           apps.map (mutateApp fl dflt)) ∧
    (apps.filterMap (entryOf lookup fl dflt rd)).length =
      apps.length - apps.countP (fun a => ! app_matches lookup fl dflt rd a) ∧
    ((apps.any (fun a => ! app_matches lookup fl dflt rd a)) = true ↔
      0 < apps.countP (fun a => ! app_matches lookup fl dflt rd a)) := by
  refine ⟨resolveApps_eq apps h, ?_, ?_⟩
  · have hl := @filterMap_entryOf_length lookup fl dflt rd apps
    omega
  · simp only [List.any_eq_true, List.countP_pos_iff]

/-- C2 witness: the amended theorem applied to a concrete batch of three
declarations (one direct-URL match, one id-declaration the lookup misses,
one declaration with neither key), with the hypothesis discharged by
`decide`. -/
theorem app_resolver_warning_aggregation_witness :
    resolveApps (fun _ _ => none) false "f-droid" []
      [{ id := some "org.u", url := some "http://h/d/u-1.apk",
         repo := none, versioncode := none, path := none },
       { id := some "org.x", url := none,
         repo := none, versioncode := none, path := none },
       { id := none, url := none,
         repo := none, versioncode := none, path := none }] =
      .ok ([{ id := some "org.u", url := some "http://h/d/u-1.apk",
              repo := none, versioncode := none, path := none },
            { id := some "org.x", url := none,
              repo := none, versioncode := none, path := none },
            { id := none, url := none,
              repo := none, versioncode := none, path := none }].filterMap
              (entryOf (fun _ _ => none) false "f-droid" []),
           [{ id := some "org.u", url := some "http://h/d/u-1.apk",
              repo := none, versioncode := none, path := none },
            { id := some "org.x", url := none,
              repo := none, versioncode := none, path := none },
            { id := none, url := none,
              repo := none, versioncode := none, path := none }].any
              (fun a => ! app_matches (fun _ _ => none) false "f-droid" [] a),
           [{ id := some "org.u", url := some "http://h/d/u-1.apk",
              repo := none, versioncode := none, path := none },
            { id := some "org.x", url := none,
              repo := none, versioncode := none, path := none },
            { id := none, url := none,
              repo := none, versioncode := none, path := none }].map
              (mutateApp false "f-droid")) :=
  (app_resolver_warning_aggregation (fun _ _ => none) false "f-droid" []
    [{ id := some "org.u", url := some "http://h/d/u-1.apk",
       repo := none, versioncode := none, path := none },
     { id := some "org.x", url := none,
       repo := none, versioncode := none, path := none },
     { id := none, url := none,
       repo := none, versioncode := none, path := none }] (by decide)).1

/-! ### C7: repository default and version-selection policy -/

/-- C7 (confirmed): for every declaration resolved by id, the declaration
handed to the repository lookup is the mutated declaration, whose `repo`
is the declaration's `repo` when present and otherwise the definition's
default repository id, and whose `versioncode` is the literal `"latest"`
when the force-latest flag is set or the declaration has no `versioncode`,
and otherwise the declaration's explicit `versioncode` (so it equals
`"latest"` precisely in the forced/absent cases whenever the explicit pin
is not itself the literal `"latest"`). -/
theorem id_resolution_repo_and_version_policy
    (lookup : List (String × RepoInfo) → AppDeclaration → Option LockEntry)
    (fl : Bool) (dflt : String) (rd : List (String × RepoInfo))
    (app : AppDeclaration) (i : String)
    (hu : app.url = none) (hi : app.id = some i) :
    resolveApp lookup fl dflt rd app =
      lookupStep lookup rd (mutateApp fl dflt app) ∧
    (mutateApp fl dflt app).repo = some (app.repo.getD dflt) ∧
    ((fl = true ∨ app.versioncode = none) →
      (mutateApp fl dflt app).versioncode = some "latest") ∧
    (fl = false → ∀ v, app.versioncode = some v →
      (mutateApp fl dflt app).versioncode = some v) ∧
    (app.versioncode ≠ some "latest" →
      ((mutateApp fl dflt app).versioncode = some "latest" ↔
        (fl = true ∨ app.versioncode = none))) := by
  have hv := @mutateApp_versioncode fl dflt app i hu hi
  refine ⟨resolveApp_id_eq hu hi, @mutateApp_repo fl dflt app i hu hi,
    ?_, ?_, ?_⟩
  · intro hc
    rw [hv]
    rcases hc with hc | hc <;> simp [hc]
  · intro hfl v hvc
    rw [hv, hfl, hvc]
    simp
  · intro hne
    rw [hv]
    cases fl
    · rcases hvc : app.versioncode with _ | v
      · simp
      · rw [hvc] at hne
        have hv' : ¬ v = "latest" := fun hh => hne (by rw [hh])
        simp [hvc, hv']
    · simp

/-- C7 witness: the policy theorem applied to a concrete declaration with
no `repo` and no `versioncode`, under force-latest off. -/
theorem id_resolution_repo_and_version_policy_witness :
    (mutateApp false "f-droid"
      { id := some "org.example.app", url := none, repo := none,
        versioncode := none, path := none }).repo =
      some (Option.getD none "f-droid") ∧
    (mutateApp false "f-droid"
      { id := some "org.example.app", url := none, repo := none,
        versioncode := none, path := none }).versioncode = some "latest" :=
  ⟨(id_resolution_repo_and_version_policy (fun _ _ => none) false "f-droid" []
      { id := some "org.example.app", url := none, repo := none,
        versioncode := none, path := none } "org.example.app" rfl rfl).2.1,
   (id_resolution_repo_and_version_policy (fun _ _ => none) false "f-droid" []
      { id := some "org.example.app", url := none, repo := none,
        versioncode := none, path := none } "org.example.app" rfl rfl).2.2.1
     (Or.inr rfl)⟩

/-! ### C9: in-place mutation of the declaration list -/

/-- C9 (confirmed): when the loop completes, the caller's declaration list
has been rewritten element-wise to the mutated declarations: every
declaration resolved by id that lacked a `repo` now carries the default
repository id, and its `versioncode` is overwritten with `"latest"` when
force-latest is set or it was absent — in particular such a declaration is
not left unchanged. -/
theorem resolution_mutates_declarations
    (lookup : List (String × RepoInfo) → AppDeclaration → Option LockEntry)
    (fl : Bool) (dflt : String) (rd : List (String × RepoInfo))
    (apps : List AppDeclaration) (es : List LockEntry) (w : Bool)
    (apps' : List AppDeclaration)
    (h : resolveApps lookup fl dflt rd apps = .ok (es, w, apps')) :
    apps' = apps.map (mutateApp fl dflt) ∧
    ∀ (a : AppDeclaration) (i : String), a.url = none → a.id = some i →
      (a.repo = none → (mutateApp fl dflt a).repo = some dflt) ∧
      ((fl = true ∨ a.versioncode = none) →
        (mutateApp fl dflt a).versioncode = some "latest") ∧
      (a.repo = none → mutateApp fl dflt a ≠ a) := by
  refine ⟨resolveApps_ok_mutation apps h, ?_⟩
  intro a i hu hi
  have hr := @mutateApp_repo fl dflt a i hu hi
  have hv := @mutateApp_versioncode fl dflt a i hu hi
  refine ⟨?_, ?_, ?_⟩
  · intro hrn
    rw [hr, hrn]
    rfl
  · intro hc
    rw [hv]
    rcases hc with hc | hc <;> simp [hc]
  · intro hrn heq
    rw [heq, hrn] at hr
    cases hr

/-- C9 witness: a concrete run whose declaration list comes back mutated:
the single id-declaration gains `repo = "f-droid"` and, under force-latest,
`versioncode = "latest"`. -/
theorem resolution_mutates_declarations_witness :
    [{ id := some "org.app", url := none, repo := some "f-droid",
       versioncode := some "latest", path := none }] =
    List.map (mutateApp true "f-droid")
      [{ id := some "org.app", url := none, repo := none,
         versioncode := some "7", path := none }] :=
  (resolution_mutates_declarations (fun _ _ => none) true "f-droid" []
    [{ id := some "org.app", url := none, repo := none,
       versioncode := some "7", path := none }]
    [] true
    [{ id := some "org.app", url := none, repo := some "f-droid",
       versioncode := some "latest", path := none }] rfl).1

/-! ### C10: missing or empty default repository id -/

/-- C10 (confirmed): when `settings['defaults']['repository_id']` is
missing (a `KeyError`) or empty (`sys.exit(1)`), the run aborts with a
non-zero status before any repository index is fetched (the fetched list is
empty) and before any declaration is examined — for every fetch oracle,
lookup oracle and app list, even one of pure direct-URL declarations. -/
theorem missing_default_repo_aborts_early
    (fetch : String → Except Unit Unit)
    (lookup : List (String × RepoInfo) → AppDeclaration → Option LockEntry)
    (fl cf : Bool) (settings : Settings) (cache : List String)
    (h : settings.defaults.repository_id = none ∨
         settings.defaults.repository_id = some "") :
    (get_apps_lock_info fetch lookup fl cf settings cache).1 = [] ∧
    ((get_apps_lock_info fetch lookup fl cf settings cache).2.2 =
        .error .keyError ∨
     (get_apps_lock_info fetch lookup fl cf settings cache).2.2 =
        .error .exitOne) := by
  rcases h with h | h <;> simp [get_apps_lock_info, h]

/-- C10 witness: a concrete definition with an empty default repository id
and only direct-URL declarations still fetches nothing and aborts. -/
theorem missing_default_repo_aborts_early_witness :
    (get_apps_lock_info (fun _ => .ok ()) (fun _ _ => none) false true
      { defaults := { repository_id := some "" },
        repositories := [{ id := "main", name := "Main", url := "http://m" }],
        apps := [{ id := some "a", url := some "http://m/a.apk", repo := none,
                   versioncode := none, path := none }] } ["x"]).1 = [] :=
  (missing_default_repo_aborts_early (fun _ => .ok ()) (fun _ _ => none)
    false true
    { defaults := { repository_id := some "" },
      repositories := [{ id := "main", name := "Main", url := "http://m" }],
      apps := [{ id := some "a", url := some "http://m/a.apk", repo := none,
                 versioncode := none, path := none }] } ["x"]
    (Or.inr rfl)).1

/-! ### C4: failure to fetch a repository index -/

/-- C4 counterexample: the claim says a failed index fetch does not abort
the run and instead turns every dependent declaration into a warning; with
the user confirming warnings, the run below would then return an empty lock
list.  On the code the failed fetch has no handler: the run aborts with a
fetch error before any declaration is examined, and no lock list of any
kind is returned. -/
theorem fetch_failure_no_warning_aggregation_counterexample :
    exceptOk ((get_apps_lock_info (fun _ => .error ()) (fun _ _ => none)
      false true
      { defaults := { repository_id := some "main" },
        repositories :=
          [{ id := "main", name := "Main", url := "http://repo.example" }],
        apps := [{ id := some "org.other", url := none, repo := none,
                   versioncode := none, path := none }] } []).2.2) = none := rfl

/-- C4 (amended): when fetching some repository's index document fails, the
resolution run aborts immediately with a fatal error, for every lookup
oracle and every app list: no declaration is resolved, no warning is
aggregated and no lock list is produced. -/
theorem index_fetch_failure_aborts
    (fetch : String → Except Unit Unit)
    (lookup : List (String × RepoInfo) → AppDeclaration → Option LockEntry)
    (fl cf : Bool) (settings : Settings) (cache : List String) (dflt : String)
    (hd : settings.defaults.repository_id = some dflt) (hne : ¬ dflt = "")
    (hf : (loadRepos fetch settings.repositories cache).2.2 = .error ()) :
    (get_apps_lock_info fetch lookup fl cf settings cache).2.2 =
      .error .fetchError := by
  simp only [get_apps_lock_info, hd, if_neg hne]
  rcases hl : loadRepos fetch settings.repositories cache with ⟨f, c, res⟩
  rw [hl] at hf
  rcases res with e | d
  · rfl
  · simp at hf

/-- C4 witness: the amended theorem at a concrete definition whose only
repository is uncached and whose fetch fails. -/
theorem index_fetch_failure_aborts_witness :
    (get_apps_lock_info (fun _ => .error ()) (fun _ _ => none) false true
      { defaults := { repository_id := some "main" },
        repositories :=
          [{ id := "main", name := "Main", url := "http://repo.example" }],
        apps := [{ id := some "org.app", url := none, repo := none,
                   versioncode := none, path := none }] } []).2.2 =
      .error .fetchError :=
  index_fetch_failure_aborts (fun _ => .error ()) (fun _ _ => none) false true
    { defaults := { repository_id := some "main" },
      repositories :=
        [{ id := "main", name := "Main", url := "http://repo.example" }],
      apps := [{ id := some "org.app", url := none, repo := none,
                 versioncode := none, path := none }] } [] "main"
    rfl (by decide) rfl

/-! ### C3: determinism of resolution -/

/-- C3 (confirmed): with every repository's index document already cached
locally and a fixed lookup oracle (identical lookup results), the
serialized lock document is identical across runs — in particular it does
not depend on the network oracle at all, so any two runs produce
byte-for-byte the same bytes. -/
theorem resolution_deterministic
    (fetch1 fetch2 : String → Except Unit Unit)
    (lookup : List (String × RepoInfo) → AppDeclaration → Option LockEntry)
    (fl cf : Bool) (settings : Settings) (cache : List String)
    (hc : ∀ r ∈ settings.repositories, r.id ∈ cache) :
    create_apps_lock_file_bytes fetch1 lookup fl cf settings cache =
    create_apps_lock_file_bytes fetch2 lookup fl cf settings cache := by
  simp only [create_apps_lock_file_bytes, get_apps_lock_info,
    loadRepos_all_cached fetch1 settings.repositories cache hc,
    loadRepos_all_cached fetch2 settings.repositories cache hc]

/-- C3 witness: two runs over a cached repository, one with a working and
one with a failing network, produce the same lock bytes. -/
theorem resolution_deterministic_witness :
    create_apps_lock_file_bytes (fun _ => .ok ()) (fun _ _ => none) false true
      { defaults := { repository_id := some "main" },
        repositories := [{ id := "main", name := "Main", url := "http://m" }],
        apps := [{ id := some "org.a", url := some "http://m/f/a-1.apk",
                   repo := none, versioncode := none, path := none }] }
      ["main"] =
    create_apps_lock_file_bytes (fun _ => .error ()) (fun _ _ => none) false true
      { defaults := { repository_id := some "main" },
        repositories := [{ id := "main", name := "Main", url := "http://m" }],
        apps := [{ id := some "org.a", url := some "http://m/f/a-1.apk",
                   repo := none, versioncode := none, path := none }] }
      ["main"] :=
  resolution_deterministic (fun _ => .ok ()) (fun _ => .error ())
    (fun _ _ => none) false true
    { defaults := { repository_id := some "main" },
      repositories := [{ id := "main", name := "Main", url := "http://m" }],
      apps := [{ id := some "org.a", url := some "http://m/f/a-1.apk",
                 repo := none, versioncode := none, path := none }] }
    ["main"] (by decide)

/-! ### C8: index documents are fetched at most once -/

/-- C8 (confirmed): in one run the list of network-fetched repository ids
has no duplicates, never contains an id whose index file is already in the
local cache, and after a successful run a later run over the resulting
cache state fetches nothing at all, whatever the network oracle then
does. -/
theorem index_fetched_at_most_once
    (fetch : String → Except Unit Unit) (repos : List RepoInfo)
    (cache : List String) :
    (loadRepos fetch repos cache).1.Nodup ∧
    (∀ i ∈ cache, i ∉ (loadRepos fetch repos cache).1) ∧
    (∀ d, (loadRepos fetch repos cache).2.2 = .ok d →
      ∀ fetch2 : String → Except Unit Unit,
        (loadRepos fetch2 repos (loadRepos fetch repos cache).2.1).1 = []) := by
  refine ⟨(loadRepos_fetched_nodup_disjoint fetch repos cache).1, ?_, ?_⟩
  · intro i hi hmem
    exact (loadRepos_fetched_nodup_disjoint fetch repos cache).2 i hmem hi
  · intro d hok fetch2
    have hcov := loadRepos_ok_covered fetch repos cache d hok
    rw [loadRepos_all_cached fetch2 repos
      ((loadRepos fetch repos cache).2.1) hcov]

/-- C8 witness: a repository whose index file is already cached is not
fetched. -/
theorem index_fetched_at_most_once_witness :
    "f-droid" ∉ (loadRepos (fun _ => .ok ())
      [{ id := "f-droid", name := "F-Droid", url := "https://f-droid.org/repo" }]
      ["f-droid"]).1 :=
  (index_fetched_at_most_once (fun _ => .ok ())
    [{ id := "f-droid", name := "F-Droid", url := "https://f-droid.org/repo" }]
    ["f-droid"]).2.1 "f-droid" (by decide)

/-! ### C5: lock-file persistence failure -/

/-- C5 counterexample: the claim says a failed write leaves the previously
persisted lock file in place (no truncated document replaces it).  On the
code, `open(lock_file_path, 'w')` truncates the file before anything is
dumped, and only `yaml.YAMLError` is even caught; after a failed write the
old contents are gone and an empty (truncated) lock file remains. -/
theorem lock_write_truncates_counterexample :
    create_lock_persist false true "- id: a\n" (some "- id: old\n") =
      (.exitNonZero, some "") ∧
    (some "" : Option String) ≠ some "- id: old\n" :=
  ⟨rfl, by decide⟩

/-- C5 (amended): if serialization or the write fails, the process does
terminate with a non-zero status, but the lock file has already been
truncated by the open call, so the previously persisted contents are
replaced by an empty (partial) document rather than preserved. -/
theorem lock_write_failure_exits_nonzero
    (dumpFails writeFails : Bool) (yamlBytes : String) (lockFile : Option String)
    (h : dumpFails = true ∨ writeFails = true) :
    (create_lock_persist dumpFails writeFails yamlBytes lockFile).1 =
      .exitNonZero ∧
    (create_lock_persist dumpFails writeFails yamlBytes lockFile).2 =
      some "" := by
  cases dumpFails <;> cases writeFails <;>
    simp_all [create_lock_persist]

/-- C5 witness: the amended theorem at a concrete failing write. -/
theorem lock_write_failure_exits_nonzero_witness :
    (create_lock_persist true false "- id: x\n" (some "prev")).1 =
      .exitNonZero ∧
    (create_lock_persist true false "- id: x\n" (some "prev")).2 = some "" :=
  lock_write_failure_exits_nonzero true false "- id: x\n" (some "prev")
    (Or.inl rfl)

/-! ### C6: the download loop -/

/-- C6 (confirmed): the download loop walks the lock entries strictly in
order; a 200 status is reported as a full download, 206 as a continued
download, 416 as already downloaded (skipped), and any other status raises
the fatal error: the loop stops, exactly the entries before the failing one
were fetched (in order, each with its reported outcome), and the result is
unchanged whatever lock entries follow the failing one — they are never
fetched. -/
theorem download_halts_on_bad_status (fetch : LockEntry → Nat)
    (pre : List LockEntry) (e : LockEntry) (rest rest' : List LockEntry)
    (hpre : ∀ x ∈ pre, (classify_status (fetch x)).isSome = true)
    (he : classify_status (fetch e) = none) :
    classify_status 200 = some .downloaded ∧
    classify_status 206 = some .continuedDl ∧
    classify_status 416 = some .skipped ∧
    (∀ s : Nat, s ≠ 200 → s ≠ 206 → s ≠ 416 → classify_status s = none) ∧
    (download_apps fetch (pre ++ e :: rest)).2 = true ∧
    (download_apps fetch (pre ++ e :: rest)).1.map Prod.fst = pre ∧
    (∀ p ∈ (download_apps fetch (pre ++ e :: rest)).1,
      classify_status (fetch p.1) = some p.2) ∧
    download_apps fetch (pre ++ e :: rest) =
      download_apps fetch (pre ++ e :: rest') := by
  have h1 := download_apps_halt fetch e pre rest hpre he
  have h2 := download_apps_halt fetch e pre rest' hpre he
  refine ⟨rfl, rfl, rfl, ?_, ?_, ?_, ?_, ?_⟩
  · intro s h200 h206 h416
    simp [classify_status, h200, h206, h416]
  · rw [h1]
  · rw [h1]
    simp [Function.comp_def]
  · intro p hp
    rw [h1] at hp
    simp only [List.mem_map] at hp
    obtain ⟨x, hx, rfl⟩ := hp
    obtain ⟨o, ho⟩ := Option.isSome_iff_exists.mp (hpre x hx)
    simp [ho]
  · rw [h1, h2]

/-- C6 witness: a concrete batch where the second entry returns 404: the
loop reports the failure and the third entry is never fetched. -/
theorem download_halts_on_bad_status_witness :
    (download_apps
      (fun e => if e.package_name = "a.apk" then 200 else 404)
      ([{ id := some "a", package_name := "a.apk",
          package_url := "http://h/a.apk", repository_id := none,
          path := none }] ++
        { id := some "b", package_name := "b.apk",
          package_url := "http://h/b.apk", repository_id := none,
          path := none } ::
        [{ id := some "c", package_name := "c.apk",
           package_url := "http://h/c.apk", repository_id := none,
           path := none }])).2 = true :=
  (download_halts_on_bad_status
    (fun e => if e.package_name = "a.apk" then 200 else 404)
    [{ id := some "a", package_name := "a.apk",
       package_url := "http://h/a.apk", repository_id := none, path := none }]
    { id := some "b", package_name := "b.apk",
      package_url := "http://h/b.apk", repository_id := none, path := none }
    [{ id := some "c", package_name := "c.apk",
       package_url := "http://h/c.apk", repository_id := none, path := none }]
    [] (by decide) (by decide)).2.2.2.2.1
